import Mathlib

/-!
Verification of the natural-language specification of the PWM fan controller
(`src/fan-control.c`) against a shallow embedding of its code in Lean 4.

The C program computes with 32-bit `int`s (embedded here as `ℤ`; all values
involved stay far from the 2^31 overflow boundary in every statement proved)
and with IEEE-754 binary32 `float` intermediates.  Floats are embedded
exactly: a binary32 value is represented by the rational number it denotes,
and every C float operation (conversion from `int`, division,
multiplication) is modelled as the exact rational operation followed by
`rnd32`, correct rounding to nearest with ties to even.  `rnd32` below
implements round-to-nearest-even for the binary32 significand width (24
bits) in the normal range; every float value arising in the theorems of this
file lies well inside the normal range (magnitude between 2^-30 and 2^30),
away from overflow and subnormals, so the model is exact there.  The target
platform of the program (Raspberry Pi 4, ARM) evaluates `float` arithmetic
in single precision (`FLT_EVAL_METHOD = 0`).
-/

namespace FanControl

/-- Round a rational to the nearest integer, ties to even: the rounding of a
correctly-rounded IEEE operation applied to the scaled significand. -/
def rne (q : ℚ) : ℤ :=
  if q - ⌊q⌋ < 1/2 then ⌊q⌋
  else if 1/2 < q - ⌊q⌋ then ⌊q⌋ + 1
  else if ⌊q⌋ % 2 = 0 then ⌊q⌋ else ⌊q⌋ + 1

/-- Binary exponent of a positive rational: `2 ^ flog2 q ≤ q < 2 ^ (flog2 q + 1)`. -/
def flog2 (q : ℚ) : ℤ := Int.log 2 q

/-- Correct rounding of a positive rational to the nearest IEEE-754 binary32
value (24-bit significand), ties to even.  Exact on the normal range; no
subnormal or overflow handling (never reached by the values in this file). -/
def rnd32pos (q : ℚ) : ℚ :=
  if flog2 q ≤ 23 then
    (rne (q * 2 ^ (23 - flog2 q).toNat) : ℚ) / 2 ^ (23 - flog2 q).toNat
  else
    (rne (q / 2 ^ (flog2 q - 23).toNat) : ℚ) * 2 ^ (flog2 q - 23).toNat

/-- Correct rounding of a rational to the nearest IEEE-754 binary32 value,
ties to even (normal range; see `rnd32pos`). -/
def rnd32 (q : ℚ) : ℚ :=
  if 0 < q then rnd32pos q else if q < 0 then -rnd32pos (-q) else 0

/-- C conversion `(float) n` of an `int` value: correctly rounded. -/
def i2f (n : ℤ) : ℚ := rnd32 (n : ℚ)

/-- C cast of a floating value to `int`: truncation toward zero
(C11 6.3.1.4: the fractional part is discarded). -/
def truncF (q : ℚ) : ℤ := if q < 0 then -⌊-q⌋ else ⌊q⌋

/-- The configuration globals of `fan-control.c` (lines 16-24): `PWM_PIN`,
`FREQUENCY`, `RPM_MAX`, `RPM_MIN`, `RPM_OFF`, `TEMP_MAX`, `TEMP_LOW`, `WAIT`
and `thermalFilename`.  They are mutable globals in the C source, fixed after
`initFanControl`; the embedding passes the record explicitly. -/
structure Config where
  PWM_PIN : ℤ
  FREQUENCY : ℤ
  RPM_MAX : ℤ
  RPM_MIN : ℤ
  RPM_OFF : ℤ
  TEMP_MAX : ℤ
  TEMP_LOW : ℤ
  WAIT : ℤ
  thermalFilename : List Char
deriving DecidableEq

/-- The built-in default values of the globals (`fan-control.c` lines 16-24). -/
def defaultConfig : Config :=
  { PWM_PIN := 18
    FREQUENCY := 25000
    RPM_MAX := 5000
    RPM_MIN := 1500
    RPM_OFF := 0
    TEMP_MAX := 55
    TEMP_LOW := 40
    WAIT := 5000
    thermalFilename := "/sys/class/thermal/thermal_zone0/temp".toList }

/-- The configuration invariants stated by the specification (data model:
`rpmOff ≤ rpmMin ≤ rpmMax`, `tempLow < tempMax`), together with
non-negativity of the duty floor, implied by the specified valid duty range
`[0, rpmMax]` of `setSpeed` (spec section 4.2). -/
abbrev validConfig (c : Config) : Prop :=
  0 ≤ c.RPM_OFF ∧ c.RPM_OFF ≤ c.RPM_MIN ∧ c.RPM_MIN ≤ c.RPM_MAX ∧
    c.TEMP_LOW < c.TEMP_MAX

/-- `tempLimitDiffPct = (float) (TEMP_MAX-TEMP_LOW)/100;`
(`fan-control.c` line 51): the `int` difference is converted to `float` and
divided by `100` in `float` arithmetic. -/
def tempLimitDiffPct (c : Config) : ℚ :=
  rnd32 (i2f (c.TEMP_MAX - c.TEMP_LOW) / 100)

/-- The temperature-to-duty mapping of `setFanRpm` (`fan-control.c` lines
94-109), as a function of the current temperature: `rpm` starts at
`RPM_OFF`; when `tempDiff = currTemp - TEMP_LOW` is positive,
`currTempDiffPct = tempDiff / tempLimitDiffPct` (float division of the
converted `int` by the float global), `rpm = (int)(currTempDiffPct*RPM_MAX)/100`
(float product, truncating cast, then C integer division by 100), then `rpm`
is clamped: `rpm < RPM_MIN ? RPM_MIN : rpm > RPM_MAX ? RPM_MAX : rpm`.
`Int.tdiv` is C's truncating `int` division. -/
def computeRpm (c : Config) (currTemp : ℤ) : ℤ :=
  let tempDiff := currTemp - c.TEMP_LOW
  if 0 < tempDiff then
    let currTempDiffPct := rnd32 (i2f tempDiff / tempLimitDiffPct c)
    let rpm := Int.tdiv (truncF (rnd32 (currTempDiffPct * i2f c.RPM_MAX))) 100
    if rpm < c.RPM_MIN then c.RPM_MIN
    else if c.RPM_MAX < rpm then c.RPM_MAX
    else rpm
  else c.RPM_OFF

/-- Initial value of the `static int lastRpm = 0;` local of `setFanRpm`
(`fan-control.c` line 96). -/
def lastRpmInit : ℤ := 0

/-- One iteration of `setFanRpm`'s write-suppression logic
(`fan-control.c` lines 95-108): given the previous `lastRpm` and the current
temperature, returns the new `lastRpm` (the computed rpm) and whether
`setFanSpeed` is invoked (`lastRpm != rpm`). -/
def setFanRpmStep (c : Config) (lastRpm currTemp : ℤ) : ℤ × Bool :=
  let rpm := computeRpm c currTemp
  (rpm, decide (lastRpm ≠ rpm))

/-- `getCurrTemp` (`fan-control.c` lines 74-82).  `currTemp` is initialised
to `0`; `fscanf(thermalFile, "%d", &currTemp)` either stores the parsed
integer (`some v`) or, on a matching failure, leaves `currTemp` untouched
(`none`); its return value is never checked.  Then
`currTemp = ((float) currTemp/1000)+0.5;`: float conversion, float division
by 1000, addition of the double constant `0.5` (exact: both summands fit a
53-bit significand for every 32-bit `int` input) and truncating assignment
back to `int`.  A failed `fopen` makes the C code pass `NULL` to `fscanf`,
which is undefined behaviour, not an error return; that path has no defined
value to embed. -/
def getCurrTemp (readVal : Option ℤ) : ℤ :=
  let currTemp : ℤ := readVal.getD 0
  truncF (rnd32 (i2f currTemp / 1000) + 1/2)

/-- The exact value the specification ascribes to the sensor reader
(spec section 4.3): millidegrees divided by 1000, plus 0.5, truncated -
stated there in exact arithmetic, i.e. rounding to the nearest degree with
halves up.  Modelled from the spec for comparison with `getCurrTemp`. -/
def roundMilliSpec (n : ℤ) : ℤ := ⌊(n : ℚ) / 1000 + 1/2⌋

/-- `delay` (`fan-control.c` lines 111-118): decomposition of a millisecond
count into the `timespec` fields `tv_sec = waitMillisec/msInSec` and
`tv_nsec = (waitMillisec%msInSec)*1000000L` with `msInSec = 1000`
(unsigned/`long` arithmetic, no overflow for 32-bit inputs). -/
def delay (waitMillisec : ℕ) : ℕ × ℕ :=
  (waitMillisec / 1000, waitMillisec % 1000 * 1000000)

/-! ## The pigpio hardware state touched by the program

The pigpio capability is opaque to the program; the embedding keeps exactly
the per-pin state the program reads or writes through it: pin mode
(`gpioGetMode`/`gpioSetMode`), PWM frequency (`gpioSetPWMfrequency`), PWM
range (`gpioSetPWMrange`) and PWM duty value (`gpioPWM`). -/

/-- Per-pin hardware state behind the pigpio calls. -/
structure GpioState where
  mode : ℤ → ℤ
  pwmFrequency : ℤ → ℤ
  pwmRange : ℤ → ℤ
  duty : ℤ → ℤ

/-- `PI_OUTPUT` of pigpio (mode name mapping comment, `fan-control.c` line 67). -/
def PI_OUTPUT : ℤ := 1

/-- `gpioGetMode(pin)` as used by `getPinMode` (`fan-control.c` lines 66-69). -/
def getPinMode (g : GpioState) (pin : ℤ) : ℤ := g.mode pin

/-- `gpioSetMode(pin, mode)`. -/
def gpioSetMode (g : GpioState) (pin m : ℤ) : GpioState :=
  { g with mode := Function.update g.mode pin m }

/-- `gpioSetPWMfrequency(pin, f)`. -/
def gpioSetPWMfrequency (g : GpioState) (pin f : ℤ) : GpioState :=
  { g with pwmFrequency := Function.update g.pwmFrequency pin f }

/-- `gpioSetPWMrange(pin, r)`. -/
def gpioSetPWMrange (g : GpioState) (pin r : ℤ) : GpioState :=
  { g with pwmRange := Function.update g.pwmRange pin r }

/-- `setFanSpeed(pin, speed)` = `gpioPWM(pin, speed)`
(`fan-control.c` lines 70-72). -/
def setFanSpeed (g : GpioState) (pin speed : ℤ) : GpioState :=
  { g with duty := Function.update g.duty pin speed }

/-- `setupPwm` (`fan-control.c` lines 84-92): records the current mode of
`PWM_PIN` as `origPwmPinMode`, sets the pin to output mode, configures PWM
frequency and range (range = `RPM_MAX`), writes an initial duty of
`RPM_OFF`.  Returns the new hardware state and `origPwmPinMode`. -/
def setupPwm (c : Config) (g : GpioState) : GpioState × ℤ :=
  let origPwmPinMode := getPinMode g c.PWM_PIN
  let g := gpioSetMode g c.PWM_PIN PI_OUTPUT
  let g := gpioSetPWMfrequency g c.PWM_PIN c.FREQUENCY
  let g := gpioSetPWMrange g c.PWM_PIN c.RPM_MAX
  let g := setFanSpeed g c.PWM_PIN c.RPM_OFF
  (g, origPwmPinMode)

/-- `cleanup` (`fan-control.c` lines 132-139): writes `RPM_OFF` to the fan,
then restores the pin to `origPwmPinMode` (the `gpioTerminate` and log calls
do not touch the embedded pin state). -/
def cleanup (c : Config) (origPwmPinMode : ℤ) (g : GpioState) : GpioState :=
  let g := setFanSpeed g c.PWM_PIN c.RPM_OFF
  gpioSetMode g c.PWM_PIN origPwmPinMode

/-- The duty writes the controller loop performs between setup and cleanup:
each iteration writes at most one `setFanSpeed(PWM_PIN, rpm)`. -/
def applyWrites (c : Config) (ws : List ℤ) (g : GpioState) : GpioState :=
  ws.foldl (fun s w => setFanSpeed s c.PWM_PIN w) g

/-! ## The configuration-file scan of `initFanControl`

`initFanControl` (`fan-control.c` lines 35-52) opens
`/opt/gpio/fan/params.conf` and, when present, runs a single
`fscanf(confFile, "PWM_PIN=%d RPM_MAX=%d RPM_MIN=%d RPM_OFF=%d TEMP_MAX=%d
TEMP_LOW=%d WAIT=%d THERMAL_FILE=%s", ...)`.  C `fscanf` semantics for this
format string: an ordinary character in the format must match the next input
character exactly; a space directive consumes any amount (including none) of
whitespace; `%d` skips leading whitespace then requires an optionally signed
non-empty digit sequence; `%s` skips leading whitespace then reads a
non-empty sequence of non-whitespace characters.  The scan stops at the
first failing directive; conversions already performed keep their assigned
values, later variables keep their previous (default) values. -/

/-- Whitespace as recognised by `isspace` in the C locale. -/
def isWs (c : Char) : Bool :=
  c = ' ' ∨ c = '\t' ∨ c = '\n' ∨ c = '\x0d' ∨ c = '\x0b' ∨ c = '\x0c'

/-- Consume any run of whitespace (the effect of a space directive in a
`scanf` format, and of the implicit skip of `%d`/`%s`). -/
def dropWs (s : List Char) : List Char := s.dropWhile isWs

/-- Match the literal characters of the format exactly. -/
def matchLit : List Char → List Char → Option (List Char)
  | [], s => some s
  | _ :: _, [] => none
  | c :: cs, d :: ds => if c = d then matchLit cs ds else none

/-- Digit sequence to its value. -/
def digitsVal (ds : List Char) : ℤ :=
  ds.foldl (fun a c => a * 10 + ((c.toNat : ℤ) - 48)) 0

/-- `%d` after its whitespace skip: an optionally signed non-empty digit
sequence (matching failure when no digit follows). -/
def scanUnsigned (s : List Char) : Option (ℤ × List Char) :=
  let p := s.span Char.isDigit
  if p.1 = [] then none else some (digitsVal p.1, p.2)

/-- The `%d` conversion: skip whitespace, then optional sign and digits. -/
def scanInt (s : List Char) : Option (ℤ × List Char) :=
  match dropWs s with
  | '-' :: rest => (scanUnsigned rest).map fun p => (-p.1, p.2)
  | '+' :: rest => scanUnsigned rest
  | rest => scanUnsigned rest

/-- The `%s` conversion: skip whitespace, then a non-empty run of
non-whitespace characters. -/
def scanStr (s : List Char) : Option (List Char × List Char) :=
  let p := (dropWs s).span (fun c => !(isWs c))
  if p.1 = [] then none else some (p.1, p.2)

/-- One `KEY=%d` step of the format: literal match, then `%d`. -/
def scanKeyInt (key : List Char) (s : List Char) : Option (ℤ × List Char) :=
  match matchLit key s with
  | none => none
  | some s1 => scanInt s1

/-- The whole `fscanf` of `initFanControl` on the file content: returns the
list of `int` values assigned (a prefix, in format order, of `PWM_PIN`,
`RPM_MAX`, `RPM_MIN`, `RPM_OFF`, `TEMP_MAX`, `TEMP_LOW`, `WAIT`) and the
`THERMAL_FILE` string when reached. -/
def scanConf (s : List Char) : List ℤ × Option (List Char) :=
  match scanKeyInt "PWM_PIN=".toList s with
  | none => ([], none)
  | some (v1, s) =>
  match scanKeyInt "RPM_MAX=".toList (dropWs s) with
  | none => ([v1], none)
  | some (v2, s) =>
  match scanKeyInt "RPM_MIN=".toList (dropWs s) with
  | none => ([v1, v2], none)
  | some (v3, s) =>
  match scanKeyInt "RPM_OFF=".toList (dropWs s) with
  | none => ([v1, v2, v3], none)
  | some (v4, s) =>
  match scanKeyInt "TEMP_MAX=".toList (dropWs s) with
  | none => ([v1, v2, v3, v4], none)
  | some (v5, s) =>
  match scanKeyInt "TEMP_LOW=".toList (dropWs s) with
  | none => ([v1, v2, v3, v4, v5], none)
  | some (v6, s) =>
  match scanKeyInt "WAIT=".toList (dropWs s) with
  | none => ([v1, v2, v3, v4, v5, v6], none)
  | some (v7, s) =>
  match matchLit "THERMAL_FILE=".toList (dropWs s) with
  | none => ([v1, v2, v3, v4, v5, v6, v7], none)
  | some s =>
  match scanStr s with
  | none => ([v1, v2, v3, v4, v5, v6, v7], none)
  | some (t, _) => ([v1, v2, v3, v4, v5, v6, v7], some t)

/-- `initFanControl` (`fan-control.c` lines 35-52): `none` models a missing
`params.conf` (globals keep their defaults, a warning is logged); `some s`
models a file with content `s`, scanned by the single `fscanf`; each global
keeps its default unless the scan reached its conversion.  `FREQUENCY` is
not in the format string and is never overridden. -/
def initFanControl (src : Option (List Char)) : Config :=
  match src with
  | none => defaultConfig
  | some s =>
    let r := scanConf s
    { defaultConfig with
      PWM_PIN := r.1.getD 0 defaultConfig.PWM_PIN
      RPM_MAX := r.1.getD 1 defaultConfig.RPM_MAX
      RPM_MIN := r.1.getD 2 defaultConfig.RPM_MIN
      RPM_OFF := r.1.getD 3 defaultConfig.RPM_OFF
      TEMP_MAX := r.1.getD 4 defaultConfig.TEMP_MAX
      TEMP_LOW := r.1.getD 5 defaultConfig.TEMP_LOW
      WAIT := r.1.getD 6 defaultConfig.WAIT
      thermalFilename := r.2.getD defaultConfig.thermalFilename }

/-- Field projection by format-string position (indices 0-6; any other
index designates `FREQUENCY`, which no configuration source can touch). -/
def cfgField (c : Config) : ℕ → ℤ
  | 0 => c.PWM_PIN
  | 1 => c.RPM_MAX
  | 2 => c.RPM_MIN
  | 3 => c.RPM_OFF
  | 4 => c.TEMP_MAX
  | 5 => c.TEMP_LOW
  | 6 => c.WAIT
  | _ => c.FREQUENCY

/-! ## Properties of the rounding primitives -/

theorem rne_le (q : ℚ) : (rne q : ℚ) ≤ q + 1/2 := by
  have hf := Int.floor_le q
  have hf1 := Int.lt_floor_add_one q
  unfold rne
  split_ifs with h1 h2 h3 <;> push_cast <;> linarith

theorem le_rne (q : ℚ) : q - 1/2 ≤ (rne q : ℚ) := by
  have hf := Int.floor_le q
  have hf1 := Int.lt_floor_add_one q
  unfold rne
  split_ifs with h1 h2 h3 <;> push_cast <;> linarith

theorem rne_intCast (n : ℤ) : rne (n : ℚ) = n := by
  unfold rne
  rw [Int.floor_intCast, sub_self, if_pos (by norm_num)]

theorem floor_le_rne (q : ℚ) : ⌊q⌋ ≤ rne q := by
  unfold rne
  split_ifs <;> omega

theorem rne_le_floor_succ (q : ℚ) : rne q ≤ ⌊q⌋ + 1 := by
  unfold rne
  split_ifs <;> omega

theorem rne_mono {p q : ℚ} (h : p ≤ q) : rne p ≤ rne q := by
  rcases lt_or_eq_of_le (Int.floor_mono h) with hf | hf
  · calc rne p ≤ ⌊p⌋ + 1 := rne_le_floor_succ p
      _ ≤ ⌊q⌋ := hf
      _ ≤ rne q := floor_le_rne q
  · unfold rne
    rw [← hf]
    have hpq : p - (⌊p⌋ : ℚ) ≤ q - (⌊p⌋ : ℚ) := by linarith
    by_cases h1 : q - (⌊p⌋ : ℚ) < 1/2
    · rw [if_pos (lt_of_le_of_lt hpq h1), if_pos h1]
    · rw [if_neg h1]
      by_cases h2 : p - (⌊p⌋ : ℚ) < 1/2
      · rw [if_pos h2]
        split_ifs <;> omega
      · rw [if_neg h2]
        by_cases h3 : 1/2 < p - (⌊p⌋ : ℚ)
        · rw [if_pos h3, if_pos (lt_of_lt_of_le h3 hpq)]
        · rw [if_neg h3]
          split_ifs <;> omega

/-- Evaluation rule for `rne` when the fractional part is below one half. -/
theorem rne_eval_lo {q : ℚ} {n : ℤ} (h1 : (n : ℚ) ≤ q) (h2 : q < n + 1/2) :
    rne q = n := by
  have hfl : ⌊q⌋ = n := by
    rw [Int.floor_eq_iff]
    exact ⟨h1, by push_cast; linarith⟩
  unfold rne
  rw [hfl, if_pos (by push_cast; linarith)]

/-- Evaluation rule for `rne` when the fractional part is above one half. -/
theorem rne_eval_hi {q : ℚ} {n : ℤ} (h1 : (n : ℚ) - 1/2 < q) (h2 : q ≤ n) :
    rne q = n := by
  rcases eq_or_lt_of_le h2 with heq | hlt
  · rw [heq]
    exact rne_intCast n
  · have hfl : ⌊q⌋ = n - 1 := by
      rw [Int.floor_eq_iff]
      push_cast
      exact ⟨by linarith, by linarith⟩
    unfold rne
    rw [hfl]
    rw [if_neg (by push_cast; linarith), if_pos (by push_cast; linarith)]
    omega

/-- Evaluation rule for `rne` at a tie with odd floor: round up. -/
theorem rne_tie_odd {f : ℤ} (hodd : f % 2 = 1) : rne ((f : ℚ) + 1/2) = f + 1 := by
  have hfl : ⌊(f : ℚ) + 1/2⌋ = f := by
    rw [Int.floor_eq_iff]
    constructor <;> push_cast <;> linarith
  unfold rne
  rw [hfl]
  rw [if_neg (by push_cast; linarith)]
  rw [if_neg (by push_cast; linarith)]
  rw [if_neg (by omega)]

/-! Bracketing of `flog2`. -/

theorem flog2_le_self {q : ℚ} (hq : 0 < q) : (2:ℚ) ^ flog2 q ≤ q := by
  have := Int.zpow_log_le_self (b := 2) (r := q) one_lt_two hq
  unfold flog2
  push_cast at this ⊢
  exact this

theorem lt_flog2_succ (q : ℚ) : q < (2:ℚ) ^ (flog2 q + 1) := by
  have := Int.lt_zpow_succ_log_self (b := 2) (R := ℚ) one_lt_two q
  unfold flog2
  push_cast at this ⊢
  exact this

theorem flog2_eq {q : ℚ} {e : ℤ} (h1 : (2:ℚ) ^ e ≤ q) (h2 : q < (2:ℚ) ^ (e + 1)) :
    flog2 q = e := by
  have hq : 0 < q := lt_of_lt_of_le (zpow_pos (by norm_num) e) h1
  have hle : e ≤ flog2 q := by
    unfold flog2
    rw [← Int.zpow_le_iff_le_log one_lt_two hq]
    push_cast
    exact h1
  have hlt : flog2 q < e + 1 := by
    unfold flog2
    rw [← Int.lt_zpow_iff_log_lt one_lt_two hq]
    push_cast
    exact h2
  omega

theorem flog2_mono {p q : ℚ} (hp : 0 < p) (h : p ≤ q) : flog2 p ≤ flog2 q :=
  Int.log_mono_right hp h

/-! Bounds on `rnd32pos`: representation, absolute error `2^(e-24)` (half an
ulp), enclosure in `[2^e, 2^(e+1)]`, positivity and monotonicity. -/

theorem rnd32pos_repA {q : ℚ} (he : flog2 q ≤ 23) :
    rnd32pos q =
      (rne (q * 2 ^ (23 - flog2 q).toNat) : ℚ) / 2 ^ (23 - flog2 q).toNat := by
  unfold rnd32pos
  rw [if_pos he]

theorem rnd32pos_repB {q : ℚ} (he : ¬flog2 q ≤ 23) :
    rnd32pos q =
      (rne (q / 2 ^ (flog2 q - 23).toNat) : ℚ) * 2 ^ (flog2 q - 23).toNat := by
  unfold rnd32pos
  rw [if_neg he]

theorem rnd32pos_lower {q : ℚ} (hq : 0 < q) :
    q - (2:ℚ) ^ (flog2 q - 24) ≤ rnd32pos q := by
  by_cases he : flog2 q ≤ 23
  · have hkZ : ((23 - flog2 q).toNat : ℤ) = 23 - flog2 q := by omega
    set k := (23 - flog2 q).toNat with hk
    have hk0 : (0:ℚ) < 2 ^ k := by positivity
    have hrne := le_rne (q * 2 ^ k)
    have hcoef : (2:ℚ) ^ (flog2 q - 24) * 2 ^ k = 1/2 := by
      rw [← zpow_natCast (2:ℚ) k, ← zpow_add₀ (two_ne_zero)]
      rw [show flog2 q - 24 + ((k:ℕ) : ℤ) = -1 by omega]
      norm_num
    rw [rnd32pos_repA he, le_div_iff hk0]
    nlinarith [hcoef, hrne]
  · have hkZ : ((flog2 q - 23).toNat : ℤ) = flog2 q - 23 := by omega
    set k := (flog2 q - 23).toNat with hk
    have hk0 : (0:ℚ) < 2 ^ k := by positivity
    have hrne := le_rne (q / 2 ^ k)
    have hcoef : (2:ℚ) ^ (flog2 q - 24) = 2 ^ k / 2 := by
      rw [show flog2 q - 24 = ((k:ℕ) : ℤ) - 1 by omega, zpow_sub₀ two_ne_zero,
        zpow_natCast]
      norm_num
    have hmul : (q / 2 ^ k - 1/2) * 2 ^ k ≤ (rne (q / 2 ^ k) : ℚ) * 2 ^ k :=
      mul_le_mul_of_nonneg_right hrne (le_of_lt hk0)
    have hid : (q / 2 ^ k - 1/2) * 2 ^ k = q - 2 ^ k / 2 := by
      field_simp
      ring
    rw [rnd32pos_repB he, hcoef]
    linarith [hmul, hid.symm.trans_le hmul]

theorem rnd32pos_upper {q : ℚ} (hq : 0 < q) :
    rnd32pos q ≤ q + (2:ℚ) ^ (flog2 q - 24) := by
  by_cases he : flog2 q ≤ 23
  · have hkZ : ((23 - flog2 q).toNat : ℤ) = 23 - flog2 q := by omega
    set k := (23 - flog2 q).toNat with hk
    have hk0 : (0:ℚ) < 2 ^ k := by positivity
    have hrne := rne_le (q * 2 ^ k)
    have hcoef : (2:ℚ) ^ (flog2 q - 24) * 2 ^ k = 1/2 := by
      rw [← zpow_natCast (2:ℚ) k, ← zpow_add₀ (two_ne_zero)]
      rw [show flog2 q - 24 + ((k:ℕ) : ℤ) = -1 by omega]
      norm_num
    rw [rnd32pos_repA he, div_le_iff hk0]
    nlinarith [hcoef, hrne]
  · have hkZ : ((flog2 q - 23).toNat : ℤ) = flog2 q - 23 := by omega
    set k := (flog2 q - 23).toNat with hk
    have hk0 : (0:ℚ) < 2 ^ k := by positivity
    have hrne := rne_le (q / 2 ^ k)
    have hcoef : (2:ℚ) ^ (flog2 q - 24) = 2 ^ k / 2 := by
      rw [show flog2 q - 24 = ((k:ℕ) : ℤ) - 1 by omega, zpow_sub₀ two_ne_zero,
        zpow_natCast]
      norm_num
    have hmul : (rne (q / 2 ^ k) : ℚ) * 2 ^ k ≤ (q / 2 ^ k + 1/2) * 2 ^ k :=
      mul_le_mul_of_nonneg_right hrne (le_of_lt hk0)
    have hid : (q / 2 ^ k + 1/2) * 2 ^ k = q + 2 ^ k / 2 := by
      field_simp
      ring
    rw [rnd32pos_repB he, hcoef]
    linarith [hmul, hid ▸ hmul]

theorem pow_le_rnd32pos {q : ℚ} (hq : 0 < q) :
    (2:ℚ) ^ flog2 q ≤ rnd32pos q := by
  have hlo := flog2_le_self hq
  by_cases he : flog2 q ≤ 23
  · have hkZ : ((23 - flog2 q).toNat : ℤ) = 23 - flog2 q := by omega
    set k := (23 - flog2 q).toNat with hk
    have hk0 : (0:ℚ) < 2 ^ k := by positivity
    have hsplit : (2:ℚ) ^ flog2 q * 2 ^ k = 8388608 := by
      rw [← zpow_natCast (2:ℚ) k, ← zpow_add₀ (two_ne_zero)]
      rw [show flog2 q + ((k:ℕ) : ℤ) = 23 by omega]
      norm_num
    have hs_lo : (8388608 : ℚ) ≤ q * 2 ^ k := by
      rw [← hsplit]
      exact mul_le_mul_of_nonneg_right hlo (le_of_lt hk0)
    have h1 := le_rne (q * 2 ^ k)
    have hZ : (8388608 : ℤ) ≤ rne (q * 2 ^ k) := by
      have h2 : (8388607 : ℚ) < (rne (q * 2 ^ k) : ℚ) := by linarith
      have h3 : (8388607 : ℤ) < rne (q * 2 ^ k) := by exact_mod_cast h2
      omega
    rw [rnd32pos_repA he, le_div_iff hk0, hsplit]
    exact_mod_cast hZ
  · have hkZ : ((flog2 q - 23).toNat : ℤ) = flog2 q - 23 := by omega
    set k := (flog2 q - 23).toNat with hk
    have hk0 : (0:ℚ) < 2 ^ k := by positivity
    have hsplit : (2:ℚ) ^ flog2 q = 8388608 * 2 ^ k := by
      rw [← zpow_natCast (2:ℚ) k, show (8388608 : ℚ) = 2 ^ (23:ℤ) by norm_num,
        ← zpow_add₀ (two_ne_zero)]
      rw [show (23 : ℤ) + ((k:ℕ) : ℤ) = flog2 q by omega]
    have hs_lo : (8388608 : ℚ) ≤ q / 2 ^ k := by
      rw [le_div_iff hk0, ← hsplit]
      exact hlo
    have h1 := le_rne (q / 2 ^ k)
    have hZ : (8388608 : ℤ) ≤ rne (q / 2 ^ k) := by
      have h2 : (8388607 : ℚ) < (rne (q / 2 ^ k) : ℚ) := by linarith
      have h3 : (8388607 : ℤ) < rne (q / 2 ^ k) := by exact_mod_cast h2
      omega
    rw [rnd32pos_repB he, hsplit]
    have : (8388608 : ℚ) ≤ (rne (q / 2 ^ k) : ℚ) := by exact_mod_cast hZ
    exact mul_le_mul_of_nonneg_right this (le_of_lt hk0)

theorem rnd32pos_le_pow {q : ℚ} (hq : 0 < q) :
    rnd32pos q ≤ (2:ℚ) ^ (flog2 q + 1) := by
  have hhi := lt_flog2_succ q
  by_cases he : flog2 q ≤ 23
  · have hkZ : ((23 - flog2 q).toNat : ℤ) = 23 - flog2 q := by omega
    set k := (23 - flog2 q).toNat with hk
    have hk0 : (0:ℚ) < 2 ^ k := by positivity
    have hsplit : (2:ℚ) ^ (flog2 q + 1) * 2 ^ k = 16777216 := by
      rw [← zpow_natCast (2:ℚ) k, ← zpow_add₀ (two_ne_zero)]
      rw [show flog2 q + 1 + ((k:ℕ) : ℤ) = 24 by omega]
      norm_num
    have hs_hi : q * 2 ^ k < 16777216 := by
      rw [← hsplit]
      exact mul_lt_mul_of_pos_right hhi hk0
    have h1 := rne_le (q * 2 ^ k)
    have hZ : rne (q * 2 ^ k) ≤ (16777216 : ℤ) := by
      have h2 : (rne (q * 2 ^ k) : ℚ) < 16777217 := by linarith
      have h3 : rne (q * 2 ^ k) < (16777217 : ℤ) := by exact_mod_cast h2
      omega
    rw [rnd32pos_repA he, div_le_iff hk0, hsplit]
    exact_mod_cast hZ
  · have hkZ : ((flog2 q - 23).toNat : ℤ) = flog2 q - 23 := by omega
    set k := (flog2 q - 23).toNat with hk
    have hk0 : (0:ℚ) < 2 ^ k := by positivity
    have hsplit : (2:ℚ) ^ (flog2 q + 1) = 16777216 * 2 ^ k := by
      rw [← zpow_natCast (2:ℚ) k, show (16777216 : ℚ) = 2 ^ (24:ℤ) by norm_num,
        ← zpow_add₀ (two_ne_zero)]
      rw [show (24 : ℤ) + ((k:ℕ) : ℤ) = flog2 q + 1 by omega]
    have hs_hi : q / 2 ^ k < 16777216 := by
      rw [div_lt_iff hk0]
      calc q < (2:ℚ) ^ (flog2 q + 1) := hhi
        _ = 16777216 * 2 ^ k := hsplit
    have h1 := rne_le (q / 2 ^ k)
    have hZ : rne (q / 2 ^ k) ≤ (16777216 : ℤ) := by
      have h2 : (rne (q / 2 ^ k) : ℚ) < 16777217 := by linarith
      have h3 : rne (q / 2 ^ k) < (16777217 : ℤ) := by exact_mod_cast h2
      omega
    rw [rnd32pos_repB he, hsplit]
    have : (rne (q / 2 ^ k) : ℚ) ≤ (16777216 : ℚ) := by exact_mod_cast hZ
    exact mul_le_mul_of_nonneg_right this (le_of_lt hk0)

theorem rnd32pos_pos {q : ℚ} (hq : 0 < q) : 0 < rnd32pos q :=
  lt_of_lt_of_le (zpow_pos (by norm_num) (flog2 q)) (pow_le_rnd32pos hq)

theorem rnd32pos_mono {p q : ℚ} (hp : 0 < p) (hpq : p ≤ q) :
    rnd32pos p ≤ rnd32pos q := by
  have hq : 0 < q := lt_of_lt_of_le hp hpq
  rcases lt_or_eq_of_le (flog2_mono hp hpq) with hlt | heq
  · calc rnd32pos p ≤ (2:ℚ) ^ (flog2 p + 1) := rnd32pos_le_pow hp
      _ ≤ (2:ℚ) ^ flog2 q := zpow_le_zpow_right₀ one_le_two (by omega)
      _ ≤ rnd32pos q := pow_le_rnd32pos hq
  · by_cases he : flog2 p ≤ 23
    · have heq23 : flog2 q ≤ 23 := heq ▸ he
      rw [rnd32pos_repA he, rnd32pos_repA heq23, ← heq]
      have hk0 : (0:ℚ) < 2 ^ (23 - flog2 p).toNat := by positivity
      refine (div_le_div_right hk0).mpr ?_
      have harg : p * 2 ^ (23 - flog2 p).toNat ≤ q * 2 ^ (23 - flog2 p).toNat :=
        mul_le_mul_of_nonneg_right hpq (le_of_lt hk0)
      exact_mod_cast rne_mono harg
    · have heq23 : ¬flog2 q ≤ 23 := heq ▸ he
      rw [rnd32pos_repB he, rnd32pos_repB heq23, ← heq]
      have hk0 : (0:ℚ) < 2 ^ (flog2 p - 23).toNat := by positivity
      have harg : p / 2 ^ (flog2 p - 23).toNat ≤ q / 2 ^ (flog2 p - 23).toNat :=
        (div_le_div_right hk0).mpr hpq
      have := rne_mono harg
      exact mul_le_mul_of_nonneg_right (by exact_mod_cast this) (le_of_lt hk0)

/-- Relative error of rounding down: at most one part in `2^24`. -/
theorem rnd32pos_ge_rel {q : ℚ} (hq : 0 < q) :
    q * (1 - (2:ℚ) ^ (-24 : ℤ)) ≤ rnd32pos q := by
  have h1 := rnd32pos_lower hq
  have h2 : (2:ℚ) ^ (flog2 q - 24) ≤ q * (2:ℚ) ^ (-24 : ℤ) := by
    rw [show flog2 q - 24 = flog2 q + (-24) by ring, zpow_add₀ (two_ne_zero)]
    exact mul_le_mul_of_nonneg_right (flog2_le_self hq)
      (le_of_lt (zpow_pos (by norm_num) _))
  nlinarith [h1, h2]

/-- A positive rational whose scaled significand is an integer is a binary32
value: `rnd32pos` fixes it. -/
theorem rnd32pos_eq_self {q : ℚ} {m : ℤ} (hq : 0 < q) (he : flog2 q ≤ 23)
    (hm : q * 2 ^ (23 - flog2 q).toNat = (m : ℚ)) : rnd32pos q = q := by
  have hk0 : (0:ℚ) < 2 ^ (23 - flog2 q).toNat := by positivity
  rw [rnd32pos_repA he, hm, rne_intCast, ← hm]
  exact mul_div_cancel_right₀ q (ne_of_gt hk0)

/-! `rnd32` wrappers. -/

theorem rnd32_of_pos {q : ℚ} (hq : 0 < q) : rnd32 q = rnd32pos q := by
  unfold rnd32
  rw [if_pos hq]

theorem rnd32_zero : rnd32 0 = 0 := by
  unfold rnd32
  norm_num

theorem rnd32_pos {q : ℚ} (hq : 0 < q) : 0 < rnd32 q := by
  rw [rnd32_of_pos hq]
  exact rnd32pos_pos hq

theorem rnd32_nonneg {q : ℚ} (hq : 0 ≤ q) : 0 ≤ rnd32 q := by
  rcases lt_or_eq_of_le hq with h | h
  · exact le_of_lt (rnd32_pos h)
  · rw [← h, rnd32_zero]

theorem rnd32_mono_nonneg {p q : ℚ} (hp : 0 ≤ p) (hpq : p ≤ q) :
    rnd32 p ≤ rnd32 q := by
  rcases lt_or_eq_of_le hp with h | h
  · rw [rnd32_of_pos h, rnd32_of_pos (lt_of_lt_of_le h hpq)]
    exact rnd32pos_mono h hpq
  · rw [← h, rnd32_zero]
    exact rnd32_nonneg (h ▸ hpq)

/-- `rnd32` fixes integers below `2^24`: conversion of such an `int` to
`float` is exact. -/
theorem rnd32_intCast {n : ℤ} (h0 : 0 ≤ n) (h24 : n < 2 ^ 24) :
    rnd32 (n : ℚ) = (n : ℚ) := by
  rcases lt_or_eq_of_le h0 with hpos | hzero
  · have hq : (0:ℚ) < (n:ℚ) := by exact_mod_cast hpos
    have hqlt : (n : ℚ) < (2:ℚ) ^ (24 : ℤ) := by
      rw [show ((2:ℚ) ^ (24:ℤ)) = ((2 ^ 24 : ℤ) : ℚ) by norm_num]
      exact_mod_cast h24
    have he : flog2 (n : ℚ) ≤ 23 := by
      by_contra hgt
      push_neg at hgt
      have h1 : (2:ℚ) ^ (24:ℤ) ≤ (2:ℚ) ^ flog2 (n:ℚ) :=
        zpow_le_zpow_right₀ one_le_two (by omega)
      have h2 := flog2_le_self hq
      linarith
    have hkZ : ((23 - flog2 (n:ℚ)).toNat : ℤ) = 23 - flog2 (n:ℚ) := by omega
    rw [rnd32_of_pos hq]
    exact rnd32pos_eq_self hq he
      (m := n * 2 ^ (23 - flog2 (n:ℚ)).toNat) (by push_cast; ring)
  · rw [← hzero]
    norm_num [rnd32_zero]

/-! Evaluation rules for `rnd32` at concrete rationals, driven by an
explicitly supplied exponent and significand. -/

theorem rnd32_eval {q : ℚ} {e m : ℤ} {k : ℕ} (hek : e + (k : ℤ) = 23)
    (h1 : (2:ℚ) ^ e ≤ q) (h2 : q < (2:ℚ) ^ (e + 1))
    (hm : rne (q * 2 ^ k) = m) :
    rnd32 q = (m : ℚ) / 2 ^ k := by
  have hq : 0 < q := lt_of_lt_of_le (zpow_pos (by norm_num) e) h1
  have he : flog2 q = e := flog2_eq h1 h2
  have hkN : (23 - flog2 q).toNat = k := by omega
  rw [rnd32_of_pos hq, rnd32pos_repA (by omega), hkN, hm]

theorem rnd32_eval_hi {q : ℚ} {e m : ℤ} {k : ℕ} (hek : e - (k : ℤ) = 23)
    (h1 : (2:ℚ) ^ e ≤ q) (h2 : q < (2:ℚ) ^ (e + 1))
    (hm : rne (q / 2 ^ k) = m) :
    rnd32 q = (m : ℚ) * 2 ^ k := by
  have hq : 0 < q := lt_of_lt_of_le (zpow_pos (by norm_num) e) h1
  have he : flog2 q = e := flog2_eq h1 h2
  have hk1 : 0 < k ∨ k = 0 := by omega
  by_cases hk : k = 0
  · subst hk
    have he23 : flog2 q ≤ 23 := by omega
    have hkN : (23 - flog2 q).toNat = 0 := by omega
    rw [rnd32_of_pos hq, rnd32pos_repA he23, hkN]
    simpa using hm
  · have he23 : ¬flog2 q ≤ 23 := by omega
    have hkN : (flog2 q - 23).toNat = k := by omega
    rw [rnd32_of_pos hq, rnd32pos_repB he23, hkN, hm]

/-! `truncF` and `Int.tdiv` support. -/

theorem truncF_of_nonneg {q : ℚ} (hq : 0 ≤ q) : truncF q = ⌊q⌋ := by
  unfold truncF
  rw [if_neg (not_lt.mpr hq)]

theorem truncF_mono_nonneg {p q : ℚ} (hp : 0 ≤ p) (hpq : p ≤ q) :
    truncF p ≤ truncF q := by
  rw [truncF_of_nonneg hp, truncF_of_nonneg (le_trans hp hpq)]
  exact Int.floor_mono hpq

theorem truncF_nonneg {q : ℚ} (hq : 0 ≤ q) : 0 ≤ truncF q := by
  rw [truncF_of_nonneg hq]
  exact Int.floor_nonneg.mpr hq

/-- Evaluation of the truncating cast on a non-negative value. -/
theorem truncF_eval {q : ℚ} {n : ℤ} (h0 : 0 ≤ n) (h1 : (n : ℚ) ≤ q)
    (h2 : q < n + 1) : truncF q = n := by
  have hq : (0:ℚ) ≤ q := le_trans (by exact_mod_cast h0) h1
  rw [truncF_of_nonneg hq, Int.floor_eq_iff]
  exact ⟨h1, h2⟩

theorem tdiv_le_tdiv_nonneg {a b : ℤ} (h0 : 0 ≤ a) (hab : a ≤ b) :
    Int.tdiv a 100 ≤ Int.tdiv b 100 := by
  rw [Int.tdiv_eq_ediv h0 (by norm_num), Int.tdiv_eq_ediv (le_trans h0 hab) (by norm_num)]
  exact Int.ediv_le_ediv (by norm_num) hab

theorem le_tdiv_of_le {a c : ℤ} (h0 : 0 ≤ a) (h : c * 100 ≤ a) :
    c ≤ Int.tdiv a 100 := by
  rw [Int.tdiv_eq_ediv h0 (by norm_num)]
  exact Int.le_ediv_iff_mul_le (by norm_num) |>.mpr h

/-! ## Claims -/

/-- C1: for every temperature and every configuration with
`rpmOff ≤ rpmMin ≤ rpmMax` and `tempLow < tempMax`, the rpm computed by
`setFanRpm` is either exactly `RPM_OFF` or lies in `[RPM_MIN, RPM_MAX]`;
it is never strictly between `RPM_OFF` and `RPM_MIN`. -/
theorem computeRpm_off_or_clamped (c : Config) (t : ℤ)
    (hinv : c.RPM_OFF ≤ c.RPM_MIN ∧ c.RPM_MIN ≤ c.RPM_MAX ∧
      c.TEMP_LOW < c.TEMP_MAX) :
    computeRpm c t = c.RPM_OFF ∨
      (c.RPM_MIN ≤ computeRpm c t ∧ computeRpm c t ≤ c.RPM_MAX) := by
  obtain ⟨h1, h2, h3⟩ := hinv
  simp only [computeRpm]
  split_ifs <;> omega

/-- Witness for C1 at the default configuration and 45 degrees. -/
theorem computeRpm_off_or_clamped_witness :
    computeRpm defaultConfig 45 = defaultConfig.RPM_OFF ∨
      (defaultConfig.RPM_MIN ≤ computeRpm defaultConfig 45 ∧
        computeRpm defaultConfig 45 ≤ defaultConfig.RPM_MAX) :=
  computeRpm_off_or_clamped defaultConfig 45
    ⟨by norm_num [defaultConfig], by norm_num [defaultConfig],
      by norm_num [defaultConfig]⟩

/-- C2: for every `currTemp ≤ TEMP_LOW` (any valid configuration) the
mapper returns exactly `RPM_OFF`; in particular at the boundary
`currTemp = TEMP_LOW`. -/
theorem computeRpm_le_tempLow (c : Config) (t : ℤ) (hv : validConfig c)
    (ht : t ≤ c.TEMP_LOW) : computeRpm c t = c.RPM_OFF := by
  unfold computeRpm
  rw [if_neg (by omega)]

/-- Witness for C2 at the default configuration and the boundary 40. -/
theorem computeRpm_le_tempLow_witness :
    computeRpm defaultConfig 40 = defaultConfig.RPM_OFF :=
  computeRpm_le_tempLow defaultConfig 40
    ⟨by norm_num [defaultConfig], by norm_num [defaultConfig],
      by norm_num [defaultConfig], by norm_num [defaultConfig]⟩
    (by norm_num [defaultConfig])

/-- C5 counterexample: `lastRpm` is initialised to `0`, which is not an
out-of-range sentinel: at first reading 40 degrees (default configuration)
the computed duty equals the initial `lastRpm`, the comparison does not
differ, and no write is issued on the first iteration. -/
theorem lastRpm_init_not_sentinel :
    computeRpm defaultConfig 40 = lastRpmInit ∧
      setFanRpmStep defaultConfig lastRpmInit 40 = (0, false) := by
  have h : computeRpm defaultConfig 40 = 0 := by
    unfold computeRpm
    norm_num [defaultConfig]
  refine ⟨h, ?_⟩
  unfold setFanRpmStep lastRpmInit
  rw [h]
  simp [lastRpmInit]

/-- C5 amended: `lastRpm` starts at `0` (the default `RPM_OFF`, matching
the duty written by `setupPwm`), so the first iteration writes the computed
duty if and only if that duty is nonzero. -/
theorem first_write_iff_nonzero (c : Config) (t : ℤ) :
    (setFanRpmStep c lastRpmInit t).2 = true ↔ computeRpm c t ≠ 0 := by
  unfold setFanRpmStep lastRpmInit
  simp [ne_comm]

/-- C6: `getCurrTemp` has no error path.  When the sensor content cannot be
parsed (`fscanf` matches nothing), the uninitialised-to-zero `currTemp`
survives and the function returns `0` degrees, indistinguishable from a
genuine reading of `0`; no `SensorReadError`-like outcome exists (and a
failed `fopen` is a NULL-pointer dereference, undefined behaviour). -/
theorem getCurrTemp_no_error :
    getCurrTemp none = 0 ∧ getCurrTemp none = getCurrTemp (some 0) := by
  constructor
  · unfold getCurrTemp
    simp only [Option.getD_none]
    have h1 : i2f 0 / 1000 = 0 := by
      unfold i2f
      norm_num [rnd32_zero]
    rw [h1, rnd32_zero]
    exact truncF_eval (n := 0) (by norm_num) (by norm_num) (by norm_num)
  · rfl

/-- C8: for every initial hardware state (hence every initial pin mode),
`setupPwm` followed by any sequence of loop duty writes and then `cleanup`
restores the pin mode of `PWM_PIN` to exactly its pre-setup value, and
`cleanup` leaves a duty of `RPM_OFF` written (its `setFanSpeed(PWM_PIN,
RPM_OFF)` precedes the mode restore). -/
theorem setup_cleanup_roundtrip (c : Config) (g : GpioState) (ws : List ℤ) :
    (cleanup c (setupPwm c g).2 (applyWrites c ws (setupPwm c g).1)).mode
        c.PWM_PIN = g.mode c.PWM_PIN ∧
      (cleanup c (setupPwm c g).2 (applyWrites c ws (setupPwm c g).1)).duty
        c.PWM_PIN = c.RPM_OFF := by
  have hmode : ∀ (h : GpioState), (applyWrites c ws h).mode = h.mode := by
    intro h
    induction ws generalizing h with
    | nil => rfl
    | cons w ws ih => exact ih _
  unfold cleanup setupPwm
  constructor
  · simp [gpioSetMode, setFanSpeed, getPinMode, gpioSetPWMfrequency,
      gpioSetPWMrange]
  · simp [gpioSetMode, setFanSpeed, getPinMode, gpioSetPWMfrequency,
      gpioSetPWMrange]

/-- C7 counterexample: a present, well-formed `key=value` source that
provides only the `TEMP_LOW` field does not override it - the positional
`fscanf` fails at the first literal and every field keeps its default
(`TEMP_LOW` stays 40, not 45), contradicting "any subset of fields may be
overridden". -/
theorem conf_single_field_not_overridden :
    (initFanControl (some ("TEMP_LOW=45".toList))).TEMP_LOW = 40 := by
  decide

/-- C7 amended: configuration loading is total and non-fatal - a missing
source leaves every field at its default - but only an in-order prefix of
the fixed field sequence `PWM_PIN, RPM_MAX, RPM_MIN, RPM_OFF, TEMP_MAX,
TEMP_LOW, WAIT, THERMAL_FILE` can be overridden: every field at or beyond
the first failing conversion (and `FREQUENCY`, always) retains its built-in
default, and a source providing the full sequence overrides everything. -/
theorem initFanControl_prefix_semantics :
    initFanControl none = defaultConfig ∧
      (∀ (s : List Char) (i : ℕ), (scanConf s).1.length ≤ i →
        cfgField (initFanControl (some s)) i = cfgField defaultConfig i) ∧
      initFanControl (some (("PWM_PIN=19 RPM_MAX=4000 RPM_MIN=1000 " ++
          "RPM_OFF=0 TEMP_MAX=60 TEMP_LOW=35 WAIT=2000 " ++
          "THERMAL_FILE=/tmp/t").toList)) =
        { PWM_PIN := 19, FREQUENCY := 25000, RPM_MAX := 4000,
          RPM_MIN := 1000, RPM_OFF := 0, TEMP_MAX := 60, TEMP_LOW := 35,
          WAIT := 2000, thermalFilename := "/tmp/t".toList } := by
  refine ⟨rfl, ?_, by decide⟩
  intro s i hlen
  unfold initFanControl
  rcases hsc : scanConf s with ⟨vs, th⟩
  rw [hsc] at hlen
  simp only at hlen
  match i with
  | 0 =>
    simp [cfgField, hsc, defaultConfig, List.getD_eq_getElem?_getD,
      List.getElem?_eq_none (by omega : vs.length ≤ 0)]
  | 1 =>
    simp [cfgField, hsc, defaultConfig, List.getD_eq_getElem?_getD,
      List.getElem?_eq_none (by omega : vs.length ≤ 1)]
  | 2 =>
    simp [cfgField, hsc, defaultConfig, List.getD_eq_getElem?_getD,
      List.getElem?_eq_none (by omega : vs.length ≤ 2)]
  | 3 =>
    simp [cfgField, hsc, defaultConfig, List.getD_eq_getElem?_getD,
      List.getElem?_eq_none (by omega : vs.length ≤ 3)]
  | 4 =>
    simp [cfgField, hsc, defaultConfig, List.getD_eq_getElem?_getD,
      List.getElem?_eq_none (by omega : vs.length ≤ 4)]
  | 5 =>
    simp [cfgField, hsc, defaultConfig, List.getD_eq_getElem?_getD,
      List.getElem?_eq_none (by omega : vs.length ≤ 5)]
  | 6 =>
    simp [cfgField, hsc, defaultConfig, List.getD_eq_getElem?_getD,
      List.getElem?_eq_none (by omega : vs.length ≤ 6)]
  | (j + 7) =>
    simp [cfgField, hsc, defaultConfig]

/-- Witness for the C7 amended theorem: an empty source matches no
conversion, so field 3 (`RPM_OFF`) keeps its default. -/
theorem initFanControl_prefix_semantics_witness :
    cfgField (initFanControl (some ([] : List Char))) 3 =
      cfgField defaultConfig 3 :=
  initFanControl_prefix_semantics.2.1 [] 3 (by decide)

/-- Conversion to `float` is exact below `2^24`. -/
theorem i2f_small {n : ℤ} (h0 : 0 ≤ n) (h24 : n < 16777216) :
    i2f n = (n : ℚ) := by
  unfold i2f
  exact rnd32_intCast h0
    (by rw [show (2:ℤ)^24 = 16777216 from by norm_num]; exact h24)

/-- The float value of `tempLimitDiffPct` under the default configuration:
`0.15f = 10066330 / 2^26`, strictly above `3/20`. -/
theorem tlp_default :
    tempLimitDiffPct defaultConfig = 10066330 / 67108864 := by
  unfold tempLimitDiffPct
  rw [show defaultConfig.TEMP_MAX - defaultConfig.TEMP_LOW = (15:ℤ) from by
    norm_num [defaultConfig]]
  rw [show i2f 15 = (15:ℚ) from by rw [i2f_small (by norm_num) (by norm_num)]; norm_num]
  have hm : rne ((15:ℚ) / 100 * 2 ^ (26:ℕ)) = 10066330 := by
    rw [show (15:ℚ) / 100 * 2 ^ (26:ℕ) = 10066329 + 3/5 from by norm_num]
    exact rne_eval_hi (by push_cast; norm_num) (by push_cast; norm_num)
  rw [rnd32_eval (e := -3) (by norm_num) (by norm_num) (by norm_num) hm]
  norm_num

/-- The float quotient `15 / 0.15f` rounds to `13107199 / 2^17`, strictly
below 100. -/
theorem pct_default_55 :
    rnd32 ((15:ℚ) / (10066330 / 67108864)) = 13107199 / 131072 := by
  rw [show (15:ℚ) / (10066330 / 67108864) = 100663296 / 1006633 from by
    norm_num]
  have hm : rne ((100663296:ℚ) / 1006633 * 2 ^ (17:ℕ)) = 13107199 := by
    apply rne_eval_lo <;> push_cast <;> rw [div_mul_eq_mul_div] <;>
      [rw [le_div_iff (by norm_num)]; rw [div_lt_iff (by norm_num)]] <;>
      norm_num
  rw [rnd32_eval (e := 6) (by norm_num)
    (by rw [le_div_iff (by norm_num)]; norm_num)
    (by rw [div_lt_iff (by norm_num)]; norm_num) hm]
  norm_num

/-- The float product `(15/0.15f) * 5000` rounds to `15999999 / 32`,
strictly below 500000. -/
theorem prod_default_55 :
    rnd32 ((13107199:ℚ) / 131072 * 5000) = 15999999 / 32 := by
  rw [show (13107199:ℚ) / 131072 * 5000 = 8191999375 / 16384 from by
    norm_num]
  have hm : rne ((8191999375:ℚ) / 16384 * 2 ^ (5:ℕ)) = 15999999 := by
    apply rne_eval_hi <;> push_cast <;> rw [div_mul_eq_mul_div] <;>
      [rw [lt_div_iff (by norm_num)]; rw [div_le_iff (by norm_num)]] <;>
      norm_num
  rw [rnd32_eval (e := 18) (by norm_num)
    (by rw [le_div_iff (by norm_num)]; norm_num)
    (by rw [div_lt_iff (by norm_num)]; norm_num) hm]
  norm_num

/-- The value of the mapper at the default configuration and 55 degrees:
`tempDiff = 15`, `15/0.15f` rounds just below 100, the product with 5000
rounds to `499999.96875`, the cast truncates to `499999`, and
`499999 / 100 = 4999`, inside the clamp interval. -/
theorem computeRpm_default_55 : computeRpm defaultConfig 55 = 4999 := by
  have hprod : rnd32 (rnd32 (i2f (55 - defaultConfig.TEMP_LOW) /
      tempLimitDiffPct defaultConfig) * i2f defaultConfig.RPM_MAX) =
      15999999 / 32 := by
    rw [tlp_default]
    rw [show (55:ℤ) - defaultConfig.TEMP_LOW = 15 from by norm_num [defaultConfig]]
    rw [show i2f 15 = (15:ℚ) from by
      rw [i2f_small (by norm_num) (by norm_num)]; norm_num]
    rw [show i2f defaultConfig.RPM_MAX = (5000:ℚ) from by
      rw [show defaultConfig.RPM_MAX = (5000:ℤ) from rfl,
        i2f_small (by norm_num) (by norm_num)]; norm_num]
    rw [pct_default_55]
    exact prod_default_55
  simp only [computeRpm]
  rw [if_pos (show (0:ℤ) < 55 - defaultConfig.TEMP_LOW from by
    norm_num [defaultConfig])]
  rw [hprod]
  rw [show truncF ((15999999:ℚ) / 32) = 499999 from
    truncF_eval (by norm_num) (by norm_num) (by norm_num)]
  rw [show Int.tdiv 499999 100 = 4999 from by decide]
  norm_num [defaultConfig]

/-- Positivity of the precomputed `tempLimitDiffPct` under the
`TEMP_LOW < TEMP_MAX` invariant. -/
theorem tempLimitDiffPct_pos (c : Config) (h : c.TEMP_LOW < c.TEMP_MAX) :
    0 < tempLimitDiffPct c := by
  unfold tempLimitDiffPct
  apply rnd32_pos
  apply div_pos _ (by norm_num : (0:ℚ) < 100)
  · unfold i2f
    apply rnd32_pos
    exact_mod_cast (by omega : (0:ℤ) < c.TEMP_MAX - c.TEMP_LOW)

/-- C3 counterexample: at the default configuration and
`currTemp = tempMax = 55` the mapper returns 4999, not `RPM_MAX = 5000`:
`0.15f` is slightly above `0.15`, so `15/0.15f` rounds to just below 100
and the truncating cast yields `499999`, hence `4999` after the integer
division - inside the clamp interval, so the clamp does not repair it. -/
theorem computeRpm_at_tempMax_default :
    computeRpm defaultConfig 55 = 4999 ∧ defaultConfig.RPM_MAX = 5000 :=
  ⟨computeRpm_default_55, rfl⟩

/-- C3 amended: with the default configuration the mapper returns `RPM_MAX`
for every `currTemp` strictly above `tempMax` (i.e. `currTemp ≥ 56`), but at
`currTemp = tempMax = 55` itself the float computation loses one unit and
returns 4999 = `RPM_MAX - 1`. -/
theorem computeRpm_saturates_above_tempMax :
    (∀ t : ℤ, 56 ≤ t → computeRpm defaultConfig t = 5000) ∧
      computeRpm defaultConfig 55 = 4999 := by
  refine ⟨?_, computeRpm_default_55⟩
  intro t ht
  have hTL : defaultConfig.TEMP_LOW = 40 := rfl
  have hdZ : (16:ℤ) ≤ t - defaultConfig.TEMP_LOW := by omega
  have hdQ : (16:ℚ) ≤ ((t - defaultConfig.TEMP_LOW : ℤ) : ℚ) := by
    exact_mod_cast hdZ
  have hdpos : (0:ℚ) < ((t - defaultConfig.TEMP_LOW : ℤ) : ℚ) := by linarith
  have ha0 : 0 < i2f (t - defaultConfig.TEMP_LOW) := rnd32_pos hdpos
  have ha : ((t - defaultConfig.TEMP_LOW : ℤ) : ℚ) * (16777215/16777216) ≤
      i2f (t - defaultConfig.TEMP_LOW) := by
    unfold i2f
    rw [rnd32_of_pos hdpos]
    have h := rnd32pos_ge_rel hdpos
    calc ((t - defaultConfig.TEMP_LOW : ℤ) : ℚ) * (16777215/16777216)
        = ((t - defaultConfig.TEMP_LOW : ℤ) : ℚ) * (1 - (2:ℚ)^(-24:ℤ)) := by
          norm_num
      _ ≤ rnd32pos ((t - defaultConfig.TEMP_LOW : ℤ) : ℚ) := h
  have hT : 0 < tempLimitDiffPct defaultConfig :=
    tempLimitDiffPct_pos _ (by norm_num [defaultConfig])
  have hbarg : 0 < i2f (t - defaultConfig.TEMP_LOW) /
      tempLimitDiffPct defaultConfig := div_pos ha0 hT
  have hb : i2f (t - defaultConfig.TEMP_LOW) / tempLimitDiffPct defaultConfig *
      (16777215/16777216) ≤
      rnd32 (i2f (t - defaultConfig.TEMP_LOW) /
        tempLimitDiffPct defaultConfig) := by
    rw [rnd32_of_pos hbarg]
    have h := rnd32pos_ge_rel hbarg
    calc i2f (t - defaultConfig.TEMP_LOW) / tempLimitDiffPct defaultConfig *
        (16777215/16777216)
        = i2f (t - defaultConfig.TEMP_LOW) / tempLimitDiffPct defaultConfig *
          (1 - (2:ℚ)^(-24:ℤ)) := by norm_num
      _ ≤ _ := h
  have hb0 : 0 < rnd32 (i2f (t - defaultConfig.TEMP_LOW) /
      tempLimitDiffPct defaultConfig) := rnd32_pos hbarg
  have h5000 : i2f defaultConfig.RPM_MAX = 5000 := by
    rw [show defaultConfig.RPM_MAX = (5000:ℤ) from rfl,
      i2f_small (by norm_num) (by norm_num)]
    norm_num
  have hcarg : 0 < rnd32 (i2f (t - defaultConfig.TEMP_LOW) /
      tempLimitDiffPct defaultConfig) * i2f defaultConfig.RPM_MAX := by
    rw [h5000]
    positivity
  have hc : rnd32 (i2f (t - defaultConfig.TEMP_LOW) /
        tempLimitDiffPct defaultConfig) * i2f defaultConfig.RPM_MAX *
        (16777215/16777216) ≤
      rnd32 (rnd32 (i2f (t - defaultConfig.TEMP_LOW) /
        tempLimitDiffPct defaultConfig) * i2f defaultConfig.RPM_MAX) := by
    rw [rnd32_of_pos hcarg]
    have h := rnd32pos_ge_rel hcarg
    calc rnd32 (i2f (t - defaultConfig.TEMP_LOW) /
          tempLimitDiffPct defaultConfig) * i2f defaultConfig.RPM_MAX *
          (16777215/16777216)
        = rnd32 (i2f (t - defaultConfig.TEMP_LOW) /
            tempLimitDiffPct defaultConfig) * i2f defaultConfig.RPM_MAX *
          (1 - (2:ℚ)^(-24:ℤ)) := by norm_num
      _ ≤ _ := h
  have hkey : (500000:ℚ) ≤
      rnd32 (rnd32 (i2f (t - defaultConfig.TEMP_LOW) /
        tempLimitDiffPct defaultConfig) * i2f defaultConfig.RPM_MAX) := by
    rw [h5000] at hc ⊢
    rw [tlp_default] at hb hc ⊢
    linarith [ha, hb, hc, hdQ]
  have htr0 : (0:ℤ) ≤ truncF (rnd32 (rnd32 (i2f (t - defaultConfig.TEMP_LOW) /
      tempLimitDiffPct defaultConfig) * i2f defaultConfig.RPM_MAX)) :=
    truncF_nonneg (by linarith)
  have htr : (500000:ℤ) ≤ truncF (rnd32 (rnd32 (i2f (t -
      defaultConfig.TEMP_LOW) / tempLimitDiffPct defaultConfig) *
      i2f defaultConfig.RPM_MAX)) := by
    rw [truncF_of_nonneg (by linarith)]
    exact Int.le_floor.mpr (by push_cast; linarith)
  have htdiv : (5000:ℤ) ≤ Int.tdiv (truncF (rnd32 (rnd32 (i2f (t -
      defaultConfig.TEMP_LOW) / tempLimitDiffPct defaultConfig) *
      i2f defaultConfig.RPM_MAX))) 100 :=
    le_tdiv_of_le htr0 (by omega)
  have hMin : defaultConfig.RPM_MIN = 1500 := rfl
  have hMax : defaultConfig.RPM_MAX = 5000 := rfl
  simp only [computeRpm]
  rw [if_pos (show (0:ℤ) < t - defaultConfig.TEMP_LOW from by omega)]
  split_ifs <;> omega

/-- Witness for the C3 amended theorem at `currTemp = 60`. -/
theorem computeRpm_saturates_above_tempMax_witness :
    computeRpm defaultConfig 60 = 5000 :=
  computeRpm_saturates_above_tempMax.1 60 (by norm_num)

/-- On the interpolating branch (`TEMP_LOW < t`) the result is clamped into
`[RPM_MIN, RPM_MAX]` whenever `RPM_MIN ≤ RPM_MAX`. -/
theorem computeRpm_clamped (c : Config) (t : ℤ) (hmm : c.RPM_MIN ≤ c.RPM_MAX)
    (ht : c.TEMP_LOW < t) :
    c.RPM_MIN ≤ computeRpm c t ∧ computeRpm c t ≤ c.RPM_MAX := by
  simp only [computeRpm]
  split_ifs <;> omega

/-- Monotonicity of the mapper on the interpolation branch: every stage
(int-to-float conversion, division by the positive `tempLimitDiffPct`,
rounding, multiplication by the non-negative converted `RPM_MAX`,
truncation, integer division, clamping) is monotone. -/
theorem computeRpm_mono_aux (c : Config) {t1 t2 : ℤ} (hv : validConfig c)
    (h1 : c.TEMP_LOW < t1) (h12 : t1 ≤ t2) :
    computeRpm c t1 ≤ computeRpm c t2 := by
  obtain ⟨hOff0, hOffMin, hMinMax, hLM⟩ := hv
  have hT := tempLimitDiffPct_pos c hLM
  have hd1 : (0:ℚ) < ((t1 - c.TEMP_LOW : ℤ) : ℚ) := by
    exact_mod_cast (by omega : (0:ℤ) < t1 - c.TEMP_LOW)
  have hi2f_pos : 0 < i2f (t1 - c.TEMP_LOW) := rnd32_pos hd1
  have hi2f_mono : i2f (t1 - c.TEMP_LOW) ≤ i2f (t2 - c.TEMP_LOW) := by
    unfold i2f
    exact rnd32_mono_nonneg (le_of_lt hd1)
      (by exact_mod_cast (by omega : t1 - c.TEMP_LOW ≤ t2 - c.TEMP_LOW))
  have hdiv_pos : 0 < i2f (t1 - c.TEMP_LOW) / tempLimitDiffPct c :=
    div_pos hi2f_pos hT
  have hdiv_mono : i2f (t1 - c.TEMP_LOW) / tempLimitDiffPct c ≤
      i2f (t2 - c.TEMP_LOW) / tempLimitDiffPct c :=
    (div_le_div_right hT).mpr hi2f_mono
  have hp1_nonneg : 0 ≤ rnd32 (i2f (t1 - c.TEMP_LOW) / tempLimitDiffPct c) :=
    le_of_lt (rnd32_pos hdiv_pos)
  have hp_mono : rnd32 (i2f (t1 - c.TEMP_LOW) / tempLimitDiffPct c) ≤
      rnd32 (i2f (t2 - c.TEMP_LOW) / tempLimitDiffPct c) :=
    rnd32_mono_nonneg (le_of_lt hdiv_pos) hdiv_mono
  have hR : 0 ≤ i2f c.RPM_MAX := by
    unfold i2f
    exact rnd32_nonneg (by exact_mod_cast (by omega : (0:ℤ) ≤ c.RPM_MAX))
  have hprod1_nonneg :
      0 ≤ rnd32 (i2f (t1 - c.TEMP_LOW) / tempLimitDiffPct c) * i2f c.RPM_MAX :=
    mul_nonneg hp1_nonneg hR
  have hprod_mono :
      rnd32 (i2f (t1 - c.TEMP_LOW) / tempLimitDiffPct c) * i2f c.RPM_MAX ≤
        rnd32 (i2f (t2 - c.TEMP_LOW) / tempLimitDiffPct c) * i2f c.RPM_MAX :=
    mul_le_mul_of_nonneg_right hp_mono hR
  have hr1_nonneg := rnd32_nonneg hprod1_nonneg
  have hr_mono := rnd32_mono_nonneg hprod1_nonneg hprod_mono
  have htr1_nonneg := truncF_nonneg hr1_nonneg
  have htr_mono := truncF_mono_nonneg hr1_nonneg hr_mono
  have hdiv := tdiv_le_tdiv_nonneg htr1_nonneg htr_mono
  simp only [computeRpm]
  split_ifs <;> omega

/-- C4: for every valid configuration and temperatures
`TEMP_LOW < t1 ≤ t2 < TEMP_MAX`, the duty at `t1` is at most the duty at
`t2`, and both lie in `[RPM_MIN, RPM_MAX]`. -/
theorem computeRpm_monotone (c : Config) (t1 t2 : ℤ) (hv : validConfig c)
    (h1 : c.TEMP_LOW < t1) (h12 : t1 ≤ t2) (h2 : t2 < c.TEMP_MAX) :
    computeRpm c t1 ≤ computeRpm c t2 ∧
      (c.RPM_MIN ≤ computeRpm c t1 ∧ computeRpm c t1 ≤ c.RPM_MAX) ∧
      (c.RPM_MIN ≤ computeRpm c t2 ∧ computeRpm c t2 ≤ c.RPM_MAX) :=
  ⟨computeRpm_mono_aux c hv h1 h12,
    computeRpm_clamped c t1 hv.2.2.1 h1,
    computeRpm_clamped c t2 hv.2.2.1 (lt_of_lt_of_le h1 h12)⟩

/-- Witness for C4 at the default configuration, temperatures 45 and 50. -/
theorem computeRpm_monotone_witness :
    computeRpm defaultConfig 45 ≤ computeRpm defaultConfig 50 ∧
      (defaultConfig.RPM_MIN ≤ computeRpm defaultConfig 45 ∧
        computeRpm defaultConfig 45 ≤ defaultConfig.RPM_MAX) ∧
      (defaultConfig.RPM_MIN ≤ computeRpm defaultConfig 50 ∧
        computeRpm defaultConfig 50 ≤ defaultConfig.RPM_MAX) :=
  computeRpm_monotone defaultConfig 45 50
    ⟨by norm_num [defaultConfig], by norm_num [defaultConfig],
      by norm_num [defaultConfig], by norm_num [defaultConfig]⟩
    (by norm_num [defaultConfig]) (by norm_num)
    (by norm_num [defaultConfig])

/-- C9 counterexample: at a reading of 16777499 millidegrees the code
returns 16778, while dividing by 1000, adding 0.5 and truncating in exact
arithmetic gives 16777: the conversion of 16777499 to `float` already rounds
up to 16777500 (tie, even mantissa), and `16777500/1000 = 16777.5` is
exactly representable, so adding 0.5 reaches 16778. -/
theorem getCurrTemp_float_mismatch :
    getCurrTemp (some 16777499) = 16778 ∧ roundMilliSpec 16777499 = 16777 := by
  constructor
  · unfold getCurrTemp
    simp only [Option.getD_some]
    have h1 : i2f 16777499 = 16777500 := by
      unfold i2f
      have hm : rne (((16777499:ℤ):ℚ) / 2 ^ (1:ℕ)) = 8388750 := by
        rw [show ((16777499:ℤ):ℚ) / 2 ^ (1:ℕ) = ((8388749:ℤ):ℚ) + 1/2 from by
          push_cast; norm_num]
        rw [rne_tie_odd (by decide)]
        norm_num
      rw [rnd32_eval_hi (e := 24) (by norm_num) (by push_cast; norm_num)
        (by push_cast; norm_num) hm]
      norm_num
    rw [h1]
    rw [show (16777500:ℚ) / 1000 = 33555/2 from by norm_num]
    have h2 : rnd32 ((33555:ℚ)/2) = 33555/2 := by
      have hm : rne ((33555:ℚ)/2 * 2 ^ (9:ℕ)) = 8590080 := by
        rw [show (33555:ℚ)/2 * 2 ^ (9:ℕ) = ((8590080:ℤ):ℚ) from by
          push_cast; norm_num]
        exact rne_intCast 8590080
      rw [rnd32_eval (e := 14) (by norm_num) (by norm_num) (by norm_num) hm]
      norm_num
    rw [h2]
    rw [show (33555:ℚ)/2 + 1/2 = ((16778:ℤ):ℚ) from by push_cast; norm_num]
    rw [truncF_of_nonneg (by norm_num), Int.floor_intCast]
  · unfold roundMilliSpec
    rw [Int.floor_eq_iff]
    constructor <;> push_cast <;> norm_num

/-- C9 amended: for every non-negative reading below `2^24 = 16777216`
millidegrees the sensor reader returns exactly the reading rounded to the
nearest degree with halves up, `⌊n/1000 + 1/2⌋`: below `2^24` the
int-to-float conversion is exact and the float division by 1000 errs by at
most half an ulp (at most `2^-10`), less than the `1/1000` gap separating
any non-half-integer quotient from the nearest rounding boundary, while
exact-half quotients are exactly representable.  Above `2^24` the claimed
identity fails (first at 16777499). -/
theorem getCurrTemp_rounds_to_nearest (n : ℤ) (h0 : 0 ≤ n)
    (hn : n < 16777216) : getCurrTemp (some n) = roundMilliSpec n := by
  rcases eq_or_lt_of_le h0 with hn0 | hpos
  · rw [← hn0]
    have hL : getCurrTemp (some 0) = 0 := by
      unfold getCurrTemp
      simp only [Option.getD_some]
      have h1 : i2f 0 / 1000 = 0 := by
        unfold i2f
        norm_num [rnd32_zero]
      rw [h1, rnd32_zero]
      exact truncF_eval (n := 0) (by norm_num) (by norm_num) (by norm_num)
    rw [hL]
    unfold roundMilliSpec
    symm
    rw [Int.floor_eq_iff] <;> norm_num
  · unfold getCurrTemp roundMilliSpec
    simp only [Option.getD_some]
    rw [i2f_small h0 hn]
    have hyp : (0:ℚ) < (n:ℚ) / 1000 :=
      div_pos (by exact_mod_cast hpos) (by norm_num)
    have hk_lb : ((⌊(n:ℚ)/1000 + 1/2⌋ : ℤ) : ℚ) ≤ (n:ℚ)/1000 + 1/2 :=
      Int.floor_le _
    have hk_ub : (n:ℚ)/1000 + 1/2 < ⌊(n:ℚ)/1000 + 1/2⌋ + 1 :=
      Int.lt_floor_add_one _
    set k := ⌊(n:ℚ)/1000 + 1/2⌋ with hkdef
    have hk0 : (0:ℤ) ≤ k := Int.floor_nonneg.mpr (by linarith)
    have he14 : flog2 ((n:ℚ)/1000) ≤ 14 := by
      by_contra hgt
      push_neg at hgt
      have h1 : (2:ℚ)^(15:ℤ) ≤ (2:ℚ)^(flog2 ((n:ℚ)/1000)) :=
        zpow_le_zpow_right₀ one_le_two (by omega)
      have h2 := flog2_le_self hyp
      have h3 : (n:ℚ)/1000 < 32768 := by
        rw [div_lt_iff (by norm_num)]
        calc (n:ℚ) < 16777216 := by exact_mod_cast hn
          _ ≤ 32768 * 1000 := by norm_num
      norm_num at h1
      linarith
    by_cases hedge : n = 1000 * k - 500
    · have hy_eq : (n:ℚ)/1000 = (k:ℚ) - 1/2 := by
        rw [hedge]
        push_cast
        ring
      have hfix : rnd32 ((n:ℚ)/1000) = (n:ℚ)/1000 := by
        rw [rnd32_of_pos hyp]
        have hkZ : ((23 - flog2 ((n:ℚ)/1000)).toNat : ℤ) =
            23 - flog2 ((n:ℚ)/1000) := by omega
        set K := (23 - flog2 ((n:ℚ)/1000)).toNat with hKdef
        have hK1 : 1 ≤ K := by omega
        refine rnd32pos_eq_self hyp (by omega) (m := (2*k - 1) * 2^(K-1)) ?_
        rw [← hKdef, hy_eq]
        have h2K : (2:ℚ)^K = 2 * 2^(K-1) := by
          rw [← pow_succ']
          congr 1
          omega
        rw [h2K]
        push_cast
        ring
      rw [hfix, hy_eq]
      rw [show (k:ℚ) - 1/2 + 1/2 = (k:ℚ) from by ring]
      exact truncF_eval hk0 (le_refl _) (by push_cast; linarith)
    · have hge : 1000 * k - 500 ≤ n := by
        have hq : ((1000 * k - 500 : ℤ) : ℚ) ≤ (n:ℚ) := by
          push_cast
          linarith [hk_lb]
        exact_mod_cast hq
      have hgt : 1000 * k - 500 < n := by
        rcases lt_or_eq_of_le hge with h | h
        · exact h
        · exact absurd h.symm hedge
      have hlt : n < 1000 * k + 500 := by
        have hq : (n:ℚ) < ((1000 * k + 500 : ℤ) : ℚ) := by
          push_cast
          linarith [hk_ub]
        exact_mod_cast hq
      have hylo : (k:ℚ) - 1/2 + 1/1000 ≤ (n:ℚ)/1000 := by
        rw [le_div_iff (by norm_num)]
        have : ((1000 * k - 499 : ℤ) : ℚ) ≤ (n:ℚ) := by
          exact_mod_cast (by omega : 1000 * k - 499 ≤ n)
        push_cast at this
        linarith
      have hyhi : (n:ℚ)/1000 ≤ (k:ℚ) + 1/2 - 1/1000 := by
        rw [div_le_iff (by norm_num)]
        have : (n:ℚ) ≤ ((1000 * k + 499 : ℤ) : ℚ) := by
          exact_mod_cast (by omega : n ≤ 1000 * k + 499)
        push_cast at this
        linarith
      have herr_lo : (n:ℚ)/1000 - 1/1024 ≤ rnd32 ((n:ℚ)/1000) := by
        rw [rnd32_of_pos hyp]
        have h1 := rnd32pos_lower hyp
        have h2 : (2:ℚ)^(flog2 ((n:ℚ)/1000) - 24) ≤ (2:ℚ)^(-10:ℤ) :=
          zpow_le_zpow_right₀ one_le_two (by omega)
        norm_num at h2
        linarith
      have herr_hi : rnd32 ((n:ℚ)/1000) ≤ (n:ℚ)/1000 + 1/1024 := by
        rw [rnd32_of_pos hyp]
        have h1 := rnd32pos_upper hyp
        have h2 : (2:ℚ)^(flog2 ((n:ℚ)/1000) - 24) ≤ (2:ℚ)^(-10:ℤ) :=
          zpow_le_zpow_right₀ one_le_two (by omega)
        norm_num at h2
        linarith
      exact truncF_eval hk0 (by linarith) (by push_cast; linarith)

/-- Witness for the C9 amended theorem at 41499 millidegrees. -/
theorem getCurrTemp_rounds_to_nearest_witness :
    getCurrTemp (some 41499) = roundMilliSpec 41499 :=
  getCurrTemp_rounds_to_nearest 41499 (by norm_num) (by norm_num)

/-- C10: the sleep decomposition of `delay` is exact:
`tv_sec * 10^9 + tv_nsec = waitMillisec * 10^6` with
`0 ≤ tv_nsec < 10^9`. -/
theorem delay_exact (w : ℕ) :
    (delay w).1 * 1000000000 + (delay w).2 = w * 1000000 ∧
      (delay w).2 < 1000000000 := by
  unfold delay
  constructor
  · simp only
    omega
  · simp only
    omega

end FanControl
